import Mathlib

/- Verification development for the mynd todo manager.

   The repository sources at hand are the TypeScript/Svelte GUI front end:
   `src/lib/store.ts` (the GUI command-surface wrappers and the `todos` store),
   `src/lib/toasts/store.ts` (toast notifications), `src/lib/utils`
   (the `result`/`erroneous` promise-to-typed-result combinators) and the
   Svelte components (`TodoItem.svelte`, `routes/+page.svelte`).
   The Rust backend that implements the Todo Store operations themselves
   (`add`, `remove`, `delete`, `remove_done`, `move_up`, `move_down`,
   `move_below`, `load`, `dump`, `import`) is not part of these sources;
   where a claim depends on it, the operation is modelled from the spec
   (each such definition carries a `Modelled from the spec:` doc comment).

   Effectful TypeScript is embedded by explicit state passing: a Svelte
   writable store becomes a field of `GuiState`, a handler of type
   `(data) => void` becomes `data -> GuiState -> GuiState`, and a promise
   that has settled becomes an `Except` value (error side already coerced
   to a string, as JavaScript template interpolation does).  The call
   `Math.floor(Math.random() * 10000)` is modelled by passing the value of
   `Math.random()` (a rational in [0,1)) as an explicit parameter. -/

namespace Mynd

/-- The `Todo` type of `src/lib/store.ts`:
    `{ id: string; message: string; created_at: string; done?: boolean }`.
    The optional `done` field is an `Option Bool`, `none` meaning absent. -/
structure Todo where
  id : String
  message : String
  created_at : String
  done : Option Bool
deriving Repr, DecidableEq

/-- JavaScript truthiness of an optional boolean field: `undefined` is falsy,
    a present boolean is its own truth value. -/
def jsTruthy (o : Option Bool) : Bool := o.getD false

/-- The error taxonomy of spec section 7 (the part the modelled Store
    operations need): validation errors and not-found errors. -/
inductive StoreError where
  | validation : StoreError
  | notFound : StoreError
deriving Repr, DecidableEq

/-! ## Toasts (`src/lib/toasts/store.ts`) -/

/-- The `type` field of a toast: `"success" | "error" | "info"`. -/
inductive ToastType where
  | success : ToastType
  | error : ToastType
  | info : ToastType
deriving Repr, DecidableEq

/-- A toast as held in the `toasts` store.  `addToast` always merges the
    defaults in, so every stored toast has all fields present. -/
structure Toast where
  id : Nat
  message : String
  type : ToastType
  dismissible : Bool
  timeout : Nat
deriving Repr, DecidableEq

/-- The argument of `addToast`: `Omit<Toast, "id">` with the optional fields
    `type?`, `dismissible?`, `timeout?`; `none` models an absent field. -/
structure ToastInput where
  message : String
  type : Option ToastType := none
  dismissible : Option Bool := none
  timeout : Option Nat := none
deriving Repr, DecidableEq

/-- `Math.floor(Math.random() * 10000)` with `rnd` the value returned by
    `Math.random()`. -/
def genToastId (rnd : ℚ) : Nat := ⌊rnd * 10000⌋₊

/-- `{ ...defaults, ..._toast }`: the defaults
    `{ id, type: "info", dismissible: true, timeout: 5000 }` overridden by
    whichever fields the input record provides. -/
def mkToast (id : Nat) (t : ToastInput) : Toast :=
  { id := id
    message := t.message
    type := t.type.getD .info
    dismissible := t.dismissible.getD true
    timeout := t.timeout.getD 5000 }

/-- `addToast`: pushes the merged toast to the top of the list of toasts.
    (`rnd` models the `Math.random()` draw used for the id.  The
    `setTimeout`-based auto-dismissal is real time and outside this pure
    model.) -/
def addToast (t : ToastInput) (rnd : ℚ) (all : List Toast) : List Toast :=
  mkToast (genToastId rnd) t :: all

/-- `dismissToast`: `toasts.update((all) => all.filter((t) => t.id !== id))`. -/
def dismissToast (id : Nat) (all : List Toast) : List Toast :=
  all.filter (fun t => t.id != id)

/-! ## Promise combinators (`src/lib/utils`) -/

/-- The `Ok<T> | Err` union returned by `result`.  The `isOk` discriminant of
    the TypeScript union is the function `JsResult.isOk` below. -/
inductive JsResult (T : Type) where
  | ok : T → JsResult T
  | err : String → JsResult T
deriving Repr, DecidableEq

/-- The `isOk` field of the `Ok`/`Err` records. -/
def JsResult.isOk {T : Type} : JsResult T → Bool
  | .ok _ => true
  | .err _ => false

/-- `result<T>(p)`: awaits the promise inside `try`/`catch`; a fulfilled
    value `data` becomes `Ok data`, a rejection reason becomes
    `Err` of its template-string coercion.  A settled promise is an
    `Except E T`; `toStr` models the interpolation of the caught value. -/
def result {E T : Type} (toStr : E → String) (p : Except E T) : JsResult T :=
  match p with
  | .ok data => .ok data
  | .error e => .err (toStr e)

/-- The `{ success, error }` handler record taken by `erroneous`, with the
    handlers' side effects made explicit as state transformers. -/
structure ResultHandlers (T S : Type) where
  success : T → S → S
  error : String → S → S

/-- `erroneous<T>(p)(handlers)`: runs `result` on the promise and dispatches
    to exactly one of the two handlers on the result's tag. -/
def erroneous {E T S : Type} (toStr : E → String) (p : Except E T)
    (handlers : ResultHandlers T S) : S → S :=
  fun s =>
    match result toStr p with
    | .ok data => handlers.success data s
    | .err e => handlers.error e s

/-! ## GUI state and the command-surface wrappers (`src/lib/store.ts`) -/

/-- The mutable GUI state: the `todos` writable store and the `toasts`
    writable store.  (The `listulelement` store only holds a DOM node used
    for scrolling and carries no data the claims mention.) -/
structure GuiState where
  todos : List Todo
  toasts : List Toast
deriving Repr, DecidableEq

/-- `handleError` (`routes/+page.svelte`): adds an error toast with the
    message and logs to the console (the log is outside the state model).
    `src/lib/store.ts` imports the same handler from `./utils`. -/
def handleError (rnd : ℚ) (e : String) (s : GuiState) : GuiState :=
  { s with toasts := addToast { message := e, type := some .error } rnd s.toasts }

/-- A settled backend invocation: the fulfilled value is the full todo list
    the backend returns, the rejection reason is already stringified. -/
abbrev InvokeOutcome := Except String (List Todo)

namespace Gui

/-- `load()`: on success sets `todos` to the returned list, on error calls
    `handleError`. -/
def load (p : InvokeOutcome) (rnd : ℚ) : GuiState → GuiState :=
  erroneous id p
    { success := fun data s => { s with todos := data }
      error := handleError rnd }

/-- `addTodo(item)`: returns silently when `!item` (the empty string);
    otherwise invokes `add` and on success sets `todos` (the
    `scrollIntoView` timeout only touches the DOM), on error calls
    `handleError`. -/
def addTodo (item : String) (p : InvokeOutcome) (rnd : ℚ) (s : GuiState) : GuiState :=
  if item = "" then s
  else
    erroneous id p
      { success := fun data s => { s with todos := data }
        error := handleError rnd } s

/-- `removeTodo(id)`: invokes `remove`; success sets `todos`, error is
    handled.  The `id` argument only feeds the invocation, whose settled
    outcome is `p`. -/
def removeTodo (_id : String) (p : InvokeOutcome) (rnd : ℚ) : GuiState → GuiState :=
  erroneous id p
    { success := fun data s => { s with todos := data }
      error := handleError rnd }

/-- `cleanTodos()`: invokes `remove_done`; success sets `todos`, error is
    handled. -/
def cleanTodos (p : InvokeOutcome) (rnd : ℚ) : GuiState → GuiState :=
  erroneous id p
    { success := fun data s => { s with todos := data }
      error := handleError rnd }

/-- `moveUp(id)`: invokes `move_up`; success sets `todos`, error is
    handled. -/
def moveUp (_id : String) (p : InvokeOutcome) (rnd : ℚ) : GuiState → GuiState :=
  erroneous id p
    { success := fun data s => { s with todos := data }
      error := handleError rnd }

/-- `moveDown(id)`: invokes `move_down`; success sets `todos`, error is
    handled. -/
def moveDown (_id : String) (p : InvokeOutcome) (rnd : ℚ) : GuiState → GuiState :=
  erroneous id p
    { success := fun data s => { s with todos := data }
      error := handleError rnd }

/-- `moveBelow(sourceTodoId, targetTodoId)`: invokes `move_below`; success
    sets `todos`, error is handled. -/
def moveBelow (_src _tgt : String) (p : InvokeOutcome) (rnd : ℚ) : GuiState → GuiState :=
  erroneous id p
    { success := fun data s => { s with todos := data }
      error := handleError rnd }

/-- `deleteTodo(id)`: invokes `delete`; success sets `todos` and adds a
    success toast, error is handled. -/
def deleteTodo (_id : String) (p : InvokeOutcome) (rnd : ℚ) : GuiState → GuiState :=
  erroneous id p
    { success := fun data s =>
        { s with
          todos := data
          toasts := addToast
            { type := some .success, message := "Todo item sucessfully deleted" }
            rnd s.toasts }
      error := handleError rnd }

end Gui

/-- One GUI command-surface call with its arguments, covering the eight
    wrappers of `src/lib/store.ts`. -/
inductive GuiCall where
  | load : GuiCall
  | addTodo : String → GuiCall
  | removeTodo : String → GuiCall
  | cleanTodos : GuiCall
  | moveUp : String → GuiCall
  | moveDown : String → GuiCall
  | moveBelow : String → String → GuiCall
  | deleteTodo : String → GuiCall
deriving Repr, DecidableEq

/-- Whether the call reaches the backend `invoke` at all: `addTodo` guards
    the empty string (`if (!item) return;`) and then never invokes. -/
def GuiCall.invokes : GuiCall → Bool
  | .addTodo item => item != ""
  | _ => true

/-- Dispatches a `GuiCall` to its wrapper, given the settled outcome `p` of
    the backend invocation and the `Math.random()` draw `rnd` used if a
    toast is created. -/
def runCall : GuiCall → InvokeOutcome → ℚ → GuiState → GuiState
  | .load => Gui.load
  | .addTodo item => Gui.addTodo item
  | .removeTodo i => Gui.removeTodo i
  | .cleanTodos => Gui.cleanTodos
  | .moveUp i => Gui.moveUp i
  | .moveDown i => Gui.moveDown i
  | .moveBelow s t => Gui.moveBelow s t
  | .deleteTodo i => Gui.deleteTodo i

/-! ## The rendering of a todo item (`src/TodoItem.svelte`) -/

/-- The `checked={todo.done}` binding of the done-toggle checkbox: the DOM
    attribute is the truthiness of the possibly absent `done` field. -/
def renderChecked (t : Todo) : Bool := jsTruthy t.done

/-- The message class `{todo.done ? 'line-through' : ''}`: struck through
    exactly when `done` is truthy. -/
def renderMessageClass (t : Todo) : String :=
  if jsTruthy t.done then "line-through" else ""

/-! ## The move-button disabling of `routes/+page.svelte`:
    `disableMoveUp={idx === 0}` and
    `disableMoveDown={idx === todos.length - 1}`. -/

/-- `disableMoveUp={idx === 0}`. -/
def disableMoveUp (idx : Nat) : Bool := idx == 0

/-- `disableMoveDown={idx === todos.length - 1}`. -/
def disableMoveDown (idx len : Nat) : Bool := idx == len - 1

/-! ## The Todo Store operations, modelled from the spec

    The Rust backend behind `invoke` is not among the sources; these
    definitions follow the operation table of spec section 4.2. -/

/-- A blank message in the sense of spec section 4.1: empty or consisting
    of whitespace characters only. -/
def isBlank (s : String) : Bool := s.data.all Char.isWhitespace

namespace Store

/-- Modelled from the spec: the backend `add` operation is missing from the
    sources.  Section 4.2: "Appends new Todo with fresh id, `done=false`,
    `created_at=now`; Empty message → validation error, no mutation";
    section 4.1: "constructing with empty/whitespace-only message fails
    validation (signaled to caller, no item created)".  `fid` and `now` are
    the fresh id and the creation timestamp. -/
def add (l : List Todo) (msg : String) (fid now : String) : Except StoreError (List Todo) :=
  if isBlank msg then .error .validation
  else .ok (l ++ [{ id := fid, message := msg, created_at := now, done := some false }])

/-- Modelled from the spec: the backend `remove` operation is missing from
    the sources.  Section 4.2: "Toggles `done` on the matching item (acts as
    mark done, despite the name); Unknown id → NotFound error". -/
def remove (l : List Todo) (tid : String) : Except StoreError (List Todo) :=
  if l.any (fun t => t.id == tid) then
    .ok (l.map fun t =>
      if t.id == tid then { t with done := some (!jsTruthy t.done) } else t)
  else .error .notFound

/-- Swap of the adjacent elements at positions `i` and `i + 1`; the identity
    when either index is out of range. -/
def swapAdj (l : List Todo) (i : Nat) : List Todo :=
  match l[i]?, l[i + 1]? with
  | some x, some y => (l.set i y).set (i + 1) x
  | _, _ => l

/-- Modelled from the spec: the backend `move_up` operation is missing from
    the sources.  Section 4.2: "Swaps item with its immediate predecessor in
    order; No-op if already first"; unknown id → NotFound (section 7). -/
def moveUp (l : List Todo) (tid : String) : Except StoreError (List Todo) :=
  match l.findIdx? (fun t => t.id == tid) with
  | none => .error .notFound
  | some 0 => .ok l
  | some (i + 1) => .ok (swapAdj l i)

/-- Modelled from the spec: the backend `move_down` operation is missing
    from the sources.  Section 4.2: "Swaps item with its immediate successor
    in order; No-op if already last"; unknown id → NotFound (section 7). -/
def moveDown (l : List Todo) (tid : String) : Except StoreError (List Todo) :=
  match l.findIdx? (fun t => t.id == tid) with
  | none => .error .notFound
  | some i => if i + 1 < l.length then .ok (swapAdj l i) else .ok l

/-- Modelled from the spec: the backend `move_below` operation is missing
    from the sources.  Section 4.2 and the ordering algorithm of section
    4.2: treat the list as an array; compute source and target indices;
    remove source; recompute the target index (it decreases by one if
    source was before target); insert source immediately after the
    (possibly shifted) target index.  `source == target` is a no-op; a
    missing id is NotFound. -/
def moveBelow (l : List Todo) (srcId tgtId : String) : Except StoreError (List Todo) :=
  match l.findIdx? (fun t => t.id == srcId), l.findIdx? (fun t => t.id == tgtId) with
  | some si, some ti =>
    if srcId = tgtId then .ok l
    else
      match l[si]? with
      | some src =>
        let rest := l.eraseIdx si
        let ti2 := if si < ti then ti - 1 else ti
        .ok (rest.insertIdx (ti2 + 1) src)
      | none => .error .notFound
  | _, _ => .error .notFound

end Store

/-! ## Concrete fixtures used by the witness theorems -/

/-- A concrete todo used in witnesses. -/
def demoA : Todo := { id := "a1", message := "buy milk", created_at := "2024-01-01", done := none }

/-- A concrete todo used in witnesses. -/
def demoB : Todo := { id := "b2", message := "write report", created_at := "2024-01-02", done := some false }

/-- A concrete todo used in witnesses. -/
def demoC : Todo := { id := "c3", message := "ship release", created_at := "2024-01-03", done := some true }

/-! # Theorems -/

/-- Claim C4: `result` never rejects: it is total on settled promises and
    always yields a typed value — `Ok` carrying the data when the promise
    fulfilled, `Err` carrying the stringified rejection reason when it
    rejected — and its `isOk` discriminant is accurate. -/
theorem result_never_throws {E T : Type} (toStr : E → String) (p : Except E T) :
    ((∃ d, p = .ok d ∧ result toStr p = .ok d) ∨
      (∃ e, p = .error e ∧ result toStr p = .err (toStr e)))
    ∧ ((result toStr p).isOk = true ↔ ∃ d, p = .ok d) := by
  cases p with
  | ok d => exact ⟨.inl ⟨d, rfl, rfl⟩, by simp [result, JsResult.isOk]⟩
  | error e => exact ⟨.inr ⟨e, rfl, rfl⟩, by simp [result, JsResult.isOk]⟩

/-- Witness for C4 at a concrete fulfilled promise. -/
theorem result_never_throws_witness :
    ((∃ d, (Except.ok 7 : Except String Nat) = .ok d ∧
        result (fun e => e) (Except.ok 7 : Except String Nat) = .ok d) ∨
      (∃ e, (Except.ok 7 : Except String Nat) = .error e ∧
        result (fun e => e) (Except.ok 7 : Except String Nat) = .err e))
    ∧ ((result (fun e => e) (Except.ok 7 : Except String Nat)).isOk = true ↔
        ∃ d, (Except.ok 7 : Except String Nat) = .ok d) :=
  result_never_throws (fun e => e) (Except.ok 7)

/-- Claim C7: the optional `done` field of a todo is treated identically to
    `done = false` by the consumers — the checkbox `checked` binding and
    the message strike-through class — so a todo with `done` absent
    renders as not completed. -/
theorem todo_absent_done_renders_false (t : Todo) (h : t.done = none) :
    renderChecked t = renderChecked { t with done := some false }
    ∧ renderMessageClass t = renderMessageClass { t with done := some false }
    ∧ renderChecked t = false
    ∧ renderMessageClass t = "" := by
  simp [renderChecked, renderMessageClass, jsTruthy, h]

/-- Witness for C7 at a concrete todo with absent `done`. -/
theorem todo_absent_done_renders_false_witness :
    renderChecked demoA = renderChecked { demoA with done := some false }
    ∧ renderMessageClass demoA = renderMessageClass { demoA with done := some false }
    ∧ renderChecked demoA = false
    ∧ renderMessageClass demoA = "" :=
  todo_absent_done_renders_false demoA rfl

/-- Claim C9: `addToast` prepends exactly one new toast to the front of the
    toast list, leaving existing toasts unchanged and in order; the new
    toast's fields are the defaults `type = info`, `dismissible = true`,
    `timeout = 5000` overridden by whichever fields the input provides,
    with the input's message. -/
theorem addToast_prepends_with_defaults (t : ToastInput) (rnd : ℚ) (all : List Toast) :
    (addToast t rnd all).length = all.length + 1
    ∧ (addToast t rnd all).tail = all
    ∧ ∃ nt, addToast t rnd all = nt :: all
      ∧ nt.message = t.message
      ∧ (t.type = none → nt.type = .info)
      ∧ (∀ v, t.type = some v → nt.type = v)
      ∧ (t.dismissible = none → nt.dismissible = true)
      ∧ (∀ v, t.dismissible = some v → nt.dismissible = v)
      ∧ (t.timeout = none → nt.timeout = 5000)
      ∧ (∀ v, t.timeout = some v → nt.timeout = v) := by
  refine ⟨rfl, rfl, mkToast (genToastId rnd) t, rfl, rfl, ?_, ?_, ?_, ?_, ?_, ?_⟩ <;>
    first
      | (intro h; simp [mkToast, h])
      | (intro v h; simp [mkToast, h])

/-- Witness for C9 at a concrete input overriding only `type`. -/
theorem addToast_prepends_with_defaults_witness :
    (addToast { message := "hi", type := some ToastType.success } 0 []).tail = [] :=
  (addToast_prepends_with_defaults { message := "hi", type := some ToastType.success } 0 []).2.1

/-- Claim C10: `dismissToast id` removes exactly the toasts whose id equals
    `id` (all of them, should several share the id), keeps the survivors in
    their previous relative order, and is a no-op when no toast carries the
    id; toast ids are `Math.floor` of a random in `[0,1)` scaled by 10000,
    hence lie in `0..9999`, and two draws can collide. -/
theorem dismissToast_removes_exactly_id (i : Nat) (all : List Toast) :
    (∀ t, t ∈ dismissToast i all ↔ t ∈ all ∧ t.id ≠ i)
    ∧ List.Sublist (dismissToast i all) all
    ∧ ((∀ t ∈ all, t.id ≠ i) → dismissToast i all = all)
    ∧ (dismissToast i all).filter (fun t => t.id == i) = []
    ∧ (∀ rnd : ℚ, 0 ≤ rnd → rnd < 1 → genToastId rnd < 10000)
    ∧ (∃ r1 r2 : ℚ, r1 ≠ r2 ∧ 0 ≤ r1 ∧ r1 < 1 ∧ 0 ≤ r2 ∧ r2 < 1 ∧
        genToastId r1 = genToastId r2) := by
  refine ⟨?_, ?_, ?_, ?_, ?_, ?_⟩
  · intro t; simp [dismissToast]
  · exact List.filter_sublist all
  · intro h
    exact List.filter_eq_self.mpr (fun t ht => by simpa using h t ht)
  · simp [dismissToast, List.filter_eq_nil_iff]
  · intro rnd h0 h1
    have hmul : (0 : ℚ) ≤ rnd * 10000 := by positivity
    rw [genToastId, Nat.floor_lt hmul]
    push_cast
    nlinarith
  · refine ⟨0, 1 / 20000, by norm_num, by norm_num, by norm_num, by norm_num, by norm_num, ?_⟩
    have h1 : genToastId 0 = 0 := by simp [genToastId]
    have h2 : genToastId (1 / 20000) = 0 := by
      rw [genToastId, Nat.floor_eq_zero]
      norm_num
    rw [h1, h2]

/-- Witness for C10: the id range bound at a concrete random draw, through
    the theorem. -/
theorem dismissToast_removes_exactly_id_witness :
    genToastId (1 / 2 : ℚ) < 10000 :=
  (dismissToast_removes_exactly_id 0 []).2.2.2.2.1 (1 / 2) (by norm_num) (by norm_num)

/-- Claim C5: every GUI command-surface call that reaches the backend and
    whose invocation rejects surfaces the error as an error toast prepended
    by `handleError` — the state change is exactly that toast, so no error
    is silently swallowed and none terminates anything. -/
theorem gui_error_surfaces_toast (c : GuiCall) (e : String) (rnd : ℚ) (s : GuiState)
    (hc : c.invokes = true) :
    runCall c (.error e) rnd s =
      { s with toasts :=
          mkToast (genToastId rnd) { message := e, type := some .error } :: s.toasts } := by
  cases c <;>
    simp_all [runCall, Gui.load, Gui.addTodo, Gui.removeTodo, Gui.cleanTodos, Gui.moveUp,
      Gui.moveDown, Gui.moveBelow, Gui.deleteTodo, GuiCall.invokes, erroneous, result,
      handleError, addToast]

/-- Witness for C5: a rejected `load` at a concrete state yields exactly the
    error toast. -/
theorem gui_error_surfaces_toast_witness :
    runCall .load (.error "io failure") 0 { todos := [demoA], toasts := [] } =
      { todos := [demoA],
        toasts := [mkToast (genToastId 0) { message := "io failure", type := some .error }] } :=
  gui_error_surfaces_toast .load "io failure" 0 { todos := [demoA], toasts := [] } rfl

/-- Claim C8: for every GUI wrapper, a rejected invocation leaves the
    `todos` store at its previous value; `todos` is set to the returned
    list exactly when an actually-issued invocation succeeds; and
    `erroneous` dispatches every call to exactly one of the two handlers. -/
theorem gui_todos_update_discipline (c : GuiCall) (p : InvokeOutcome) (rnd : ℚ)
    (s : GuiState) :
    (∀ e, p = .error e → (runCall c p rnd s).todos = s.todos)
    ∧ (∀ d, p = .ok d → c.invokes = true → (runCall c p rnd s).todos = d)
    ∧ (∀ (E T S : Type) (toStr : E → String) (q : Except E T)
        (h : ResultHandlers T S) (s0 : S),
        Xor' (∃ d, q = .ok d ∧ erroneous toStr q h s0 = h.success d s0)
          (∃ e, q = .error e ∧ erroneous toStr q h s0 = h.error (toStr e) s0)) := by
  refine ⟨?_, ?_, ?_⟩
  · rintro e rfl
    cases c <;>
      simp [runCall, Gui.load, Gui.addTodo, Gui.removeTodo, Gui.cleanTodos, Gui.moveUp,
        Gui.moveDown, Gui.moveBelow, Gui.deleteTodo, erroneous, result, handleError]
    split <;> simp [erroneous, result, handleError]
  · rintro d rfl hc
    cases c <;>
      simp_all [runCall, Gui.load, Gui.addTodo, Gui.removeTodo, Gui.cleanTodos, Gui.moveUp,
        Gui.moveDown, Gui.moveBelow, Gui.deleteTodo, GuiCall.invokes, erroneous, result]
  · intro E T S toStr q h s0
    cases q with
    | ok d =>
      exact Or.inl ⟨⟨d, rfl, rfl⟩, by rintro ⟨e, he, -⟩; exact Except.noConfusion he⟩
    | error e =>
      exact Or.inr ⟨⟨e, rfl, rfl⟩, by rintro ⟨d, hd, -⟩; exact Except.noConfusion hd⟩

/-- Witness for C8: a rejected `removeTodo` at a concrete state leaves
    `todos` unchanged. -/
theorem gui_todos_update_discipline_witness :
    (runCall (.removeTodo "a1") (.error "NotFound") 0
        { todos := [demoA, demoB], toasts := [] }).todos = [demoA, demoB] :=
  (gui_todos_update_discipline (.removeTodo "a1") (.error "NotFound") 0
      { todos := [demoA, demoB], toasts := [] }).1 "NotFound" rfl

/-- Claim C1: the Store `add` (modelled from the spec) rejects an empty or
    whitespace-only message with a validation error — no item is created
    and no list is produced — while the GUI wrapper `addTodo` guards only
    the literal empty string, returning with the state unchanged and no
    error signaled; for any other message it forwards a rejection to the
    error-toast handler. -/
theorem add_blank_message_rejected (l : List Todo) (msg fid now : String)
    (h : isBlank msg = true) :
    Store.add l msg fid now = .error .validation
    ∧ (∀ p rnd s, Gui.addTodo "" p rnd s = s)
    ∧ (∀ e rnd s, msg ≠ "" →
        Gui.addTodo msg (.error e) rnd s =
          { s with toasts :=
              mkToast (genToastId rnd) { message := e, type := some .error } :: s.toasts }) := by
  refine ⟨by simp [Store.add, h], ?_, ?_⟩
  · intro p rnd s; simp [Gui.addTodo]
  · intro e rnd s hne
    simp [Gui.addTodo, hne, erroneous, result, handleError, addToast]

/-- Witness for C1 at the whitespace-only message `" "`. -/
theorem add_blank_message_rejected_witness :
    Store.add [demoA] " " "f9" "2024-02-02" = .error .validation :=
  (add_blank_message_rejected [demoA] " " "f9" "2024-02-02" (by decide)).1

/-- Claim C2: the Store `remove` (modelled from the spec) toggles the
    `done` flag of exactly the matching item, leaving every other item and
    the list order unchanged, and errors with NotFound for an id not
    present; on a not-yet-done item the toggle is the lifecycle transition
    `done = false → done = true` (mark done, despite the name). -/
theorem remove_toggles_done (l : List Todo) (tid : String) (i : Nat)
    (hi : i < l.length) (hnd : (l.map Todo.id).Nodup) (hid : l[i].id = tid) :
    (∃ r, Store.remove l tid = .ok r
      ∧ r.length = l.length
      ∧ (∀ j, j ≠ i → r[j]? = l[j]?)
      ∧ r[i]? = some { l[i] with done := some (!jsTruthy l[i].done) }
      ∧ (jsTruthy l[i].done = false → r[i]? = some { l[i] with done := some true }))
    ∧ (∀ (m : List Todo) (s : String), (∀ t ∈ m, t.id ≠ s) →
        Store.remove m s = .error .notFound) := by
  have hmem : l[i] ∈ l := List.getElem_mem hi
  have hany : l.any (fun t => t.id == tid) = true := by
    simp only [List.any_eq_true]
    exact ⟨l[i], hmem, by simp [hid]⟩
  have hne : ∀ j (hj : j < l.length), j ≠ i → ¬(l[j].id == tid) = true := by
    intro j hj hji hbeq
    apply hji
    have hjid : l[j].id = tid := by simpa using hbeq
    have hj2 : j < (l.map Todo.id).length := by simpa using hj
    have hi2 : i < (l.map Todo.id).length := by simpa using hi
    have hmap : (l.map Todo.id)[j] = (l.map Todo.id)[i] := by
      simp only [List.getElem_map]
      rw [hjid, hid]
    exact (List.Nodup.getElem_inj_iff hnd).mp hmap
  constructor
  · refine ⟨l.map (fun t =>
      if t.id == tid then { t with done := some (!jsTruthy t.done) } else t),
      by simp [Store.remove, hany], by simp, ?_, ?_, ?_⟩
    · intro j hj
      rcases Nat.lt_or_ge j l.length with hlt | hge
      · rw [List.getElem?_map, List.getElem?_eq_getElem hlt, Option.map_some',
          if_neg (hne j hlt hj)]
      · rw [List.getElem?_map, List.getElem?_eq_none hge]
        rfl
    · rw [List.getElem?_map, List.getElem?_eq_getElem hi]
      simp [hid]
    · intro hfalse
      rw [List.getElem?_map, List.getElem?_eq_getElem hi]
      simp [hid, hfalse]
  · intro m s hnone
    have : m.any (fun t => t.id == s) = false := by
      simp only [List.any_eq_false]
      intro t ht
      simpa using hnone t ht
    simp [Store.remove, this]

/-- Witness for C2: removing `demoB` from a concrete list marks exactly it
    done. -/
theorem remove_toggles_done_witness :
    ∃ r, Store.remove [demoA, demoB, demoC] "b2" = .ok r
      ∧ r.length = ([demoA, demoB, demoC] : List Todo).length
      ∧ (∀ j, j ≠ 1 → r[j]? = ([demoA, demoB, demoC] : List Todo)[j]?)
      ∧ r[1]? = some { demoB with done := some (!jsTruthy demoB.done) }
      ∧ (jsTruthy demoB.done = false → r[1]? = some { demoB with done := some true }) :=
  (remove_toggles_done [demoA, demoB, demoC] "b2" 1 (by decide)
    (by simp [demoA, demoB, demoC]) rfl).1

/-- Claim C6: `move_up` (modelled from the spec) on the first item and
    `move_down` on the last item are no-ops returning the unchanged list,
    and the GUI disables the corresponding buttons exactly at the boundary
    indices. -/
theorem move_boundary_noop (x : Todo) (xs : List Todo) (l : List Todo)
    (hne : l ≠ []) (hnd : (l.map Todo.id).Nodup) :
    Store.moveUp (x :: xs) x.id = .ok (x :: xs)
    ∧ Store.moveDown l (l.getLast hne).id = .ok l
    ∧ disableMoveUp 0 = true
    ∧ (∀ n, disableMoveDown (n - 1) n = true) := by
  refine ⟨?_, ?_, rfl, fun n => by simp [disableMoveDown]⟩
  · simp [Store.moveUp, List.findIdx?_cons]
  · have hdec : l.dropLast ++ [l.getLast hne] = l := List.dropLast_concat_getLast hne
    have hmap : l.dropLast.map Todo.id ++ [(l.getLast hne).id] = l.map Todo.id := by
      have h0 : l.dropLast.map Todo.id ++ [l.getLast hne].map Todo.id = l.map Todo.id := by
        rw [← List.map_append, hdec]
      simpa using h0
    have hdisj : ∀ t ∈ l.dropLast, ¬(t.id == (l.getLast hne).id) = true := by
      intro t ht hbeq
      have hnd2 : (l.dropLast.map Todo.id ++ [(l.getLast hne).id]).Nodup := by
        rw [hmap]; exact hnd
      have := List.disjoint_of_nodup_append hnd2 (a := t.id)
        (List.mem_map_of_mem Todo.id ht)
      simp only [List.mem_singleton] at this
      exact this (by simpa using hbeq)
    have hfind : l.findIdx? (fun t => t.id == (l.getLast hne).id) = some (l.length - 1) := by
      have h1 : l.dropLast.findIdx? (fun t => t.id == (l.getLast hne).id) = none := by
        rw [List.findIdx?_eq_none_iff]
        intro t ht
        simpa using hdisj t ht
      have h2 : [l.getLast hne].findIdx? (fun t => t.id == (l.getLast hne).id) = some 0 := by
        simp [List.findIdx?_cons]
      have h0 : (l.dropLast ++ [l.getLast hne]).findIdx?
          (fun t => t.id == (l.getLast hne).id) = some l.dropLast.length := by
        rw [List.findIdx?_append, h1, h2]
        simp
      rw [hdec] at h0
      rw [h0, List.length_dropLast]
    have hcond : ¬(l.length - 1 + 1 < l.length) := by omega
    rw [Store.moveDown, hfind]
    simp [hcond]

/-- Inserting at a position within bounds splits the list around the new
    element. -/
theorem insertIdx_eq_take_cons_drop {α : Type} (n : Nat) (x : α) (l : List α)
    (h : n ≤ l.length) :
    l.insertIdx n x = l.take n ++ x :: l.drop n := by
  induction l generalizing n with
  | nil =>
    cases n with
    | zero => simp
    | succ m => exact absurd h (by simp)
  | cons a as ih =>
    cases n with
    | zero => simp
    | succ m =>
      simp only [List.insertIdx_succ_cons, List.take_succ_cons, List.drop_succ_cons,
        List.cons_append]
      rw [ih m (by simpa using h)]

/-- A list in which the item with id `a` sits immediately after the first
    item satisfying the target predicate is a fixed point of `move_below`:
    the operation removes it and reinserts it in the same place. -/
theorem moveBelow_fixpoint (m : List Todo) (src : Todo) (a b : String) (k : Nat)
    (hsrc : src.id = a) (hnotin : ∀ x ∈ m, x.id ≠ a) (hab : a ≠ b)
    (hfk : m.findIdx? (fun t => t.id == b) = some k) :
    Store.moveBelow (m.insertIdx (k + 1) src) a b = .ok (m.insertIdx (k + 1) src) := by
  obtain ⟨hk, hpb, hmin⟩ := List.findIdx?_eq_some_iff_getElem.mp hfk
  have hk1 : k + 1 ≤ m.length := hk
  have hrlen : (m.insertIdx (k + 1) src).length = m.length + 1 :=
    List.length_insertIdx _ _ hk1
  have hsplit : m.insertIdx (k + 1) src = m.take (k + 1) ++ src :: m.drop (k + 1) :=
    insertIdx_eq_take_cons_drop (k + 1) src m hk1
  have htklen : (m.take (k + 1)).length = k + 1 := by
    simp [List.length_take]
    omega
  have hfa : (m.insertIdx (k + 1) src).findIdx? (fun t => t.id == a) = some (k + 1) := by
    rw [hsplit, List.findIdx?_append]
    have h1 : (m.take (k + 1)).findIdx? (fun t => t.id == a) = none := by
      rw [List.findIdx?_eq_none_iff]
      intro t ht
      simpa using hnotin t (List.mem_of_mem_take ht)
    have h2 : (src :: m.drop (k + 1)).findIdx? (fun t => t.id == a) = some 0 := by
      simp [List.findIdx?_cons, hsrc]
    rw [h1, h2]
    simp [htklen]
  have hfbr : (m.insertIdx (k + 1) src).findIdx? (fun t => t.id == b) = some k := by
    rw [List.findIdx?_eq_some_iff_getElem]
    refine ⟨by omega, ?_, ?_⟩
    · rw [List.getElem_insertIdx_of_lt m src (k + 1) k (by omega) hk]
      exact hpb
    · intro j hj
      rw [List.getElem_insertIdx_of_lt m src (k + 1) j (by omega) (by omega)]
      exact hmin j hj
  have hsome : (m.insertIdx (k + 1) src)[k + 1]? = some src := by
    rw [List.getElem?_eq_getElem (by omega)]
    rw [List.getElem_insertIdx_self m src (k + 1) hk1]
  have herase : (m.insertIdx (k + 1) src).eraseIdx (k + 1) = m :=
    List.eraseIdx_insertIdx (k + 1) m
  have hcond : ¬(k + 1 < k) := by omega
  simp only [Store.moveBelow, hfa, hfbr, hsome, hab, if_false, hcond, herase]

/-- Claim C3: for a list with pairwise distinct ids and two distinct ids
    `a`, `b` both present, `move_below` (modelled from the spec: remove the
    source, recompute the target index, reinsert immediately after the
    target) succeeds, and running it a second time returns the same list —
    idempotence. -/
theorem moveBelow_idempotent (l : List Todo) (a b : String)
    (hnd : (l.map Todo.id).Nodup) (hab : a ≠ b)
    (ha : a ∈ l.map Todo.id) (hb : b ∈ l.map Todo.id) :
    ∃ r, Store.moveBelow l a b = .ok r ∧ Store.moveBelow r a b = .ok r := by
  obtain ⟨ta, hta, hida⟩ := List.mem_map.mp ha
  obtain ⟨tb, htb, hidb⟩ := List.mem_map.mp hb
  obtain ⟨si, hfa⟩ : ∃ n, l.findIdx? (fun t => t.id == a) = some n :=
    ⟨_, List.findIdx?_eq_some_of_exists ⟨ta, hta, by simp [hida]⟩⟩
  obtain ⟨ti, hfb⟩ : ∃ n, l.findIdx? (fun t => t.id == b) = some n :=
    ⟨_, List.findIdx?_eq_some_of_exists ⟨tb, htb, by simp [hidb]⟩⟩
  obtain ⟨hsi, hpa, hmina⟩ := List.findIdx?_eq_some_iff_getElem.mp hfa
  obtain ⟨hti, hpb, hminb⟩ := List.findIdx?_eq_some_iff_getElem.mp hfb
  have hida2 : l[si].id = a := by simpa using hpa
  have hidb2 : l[ti].id = b := by simpa using hpb
  have hsiti : si ≠ ti := by
    intro h
    subst h
    apply hab
    rw [← hida2, ← hidb2]
  have hmlen : (l.eraseIdx si).length = l.length - 1 := List.length_eraseIdx_of_lt hsi
  have hsomel : l[si]? = some l[si] := List.getElem?_eq_getElem hsi
  have hfirst : Store.moveBelow l a b =
      .ok ((l.eraseIdx si).insertIdx ((if si < ti then ti - 1 else ti) + 1) l[si]) := by
    simp only [Store.moveBelow, hfa, hfb, hab, if_false, hsomel]
  have hfk : (l.eraseIdx si).findIdx? (fun t => t.id == b) =
      some (if si < ti then ti - 1 else ti) := by
    rw [List.findIdx?_eq_some_iff_getElem]
    rcases Nat.lt_or_ge si ti with hlt | hge
    · rw [if_pos hlt]
      have hklen : ti - 1 < (l.eraseIdx si).length := by omega
      refine ⟨hklen, ?_, ?_⟩
      · rw [List.getElem_eraseIdx_of_ge l si (ti - 1) hklen (by omega)]
        have : ti - 1 + 1 = ti := by omega
        simp only [this]
        exact hpb
      · intro j hj
        rcases Nat.lt_or_ge j si with hjs | hjs
        · rw [List.getElem_eraseIdx_of_lt l si j (by omega) hjs]
          exact hminb j (by omega)
        · rw [List.getElem_eraseIdx_of_ge l si j (by omega) hjs]
          exact hminb (j + 1) (by omega)
    · rw [if_neg (by omega)]
      have hti2 : ti < si := by omega
      have hklen : ti < (l.eraseIdx si).length := by omega
      refine ⟨hklen, ?_, ?_⟩
      · rw [List.getElem_eraseIdx_of_lt l si ti hklen hti2]
        exact hpb
      · intro j hj
        rw [List.getElem_eraseIdx_of_lt l si j (by omega) (by omega)]
        exact hminb j hj
  have hnotin : ∀ x ∈ l.eraseIdx si, x.id ≠ a := by
    intro x hx hxa
    obtain ⟨j, hj, hxe⟩ := List.mem_iff_getElem.mp hx
    rcases Nat.lt_or_ge j si with hjs | hjs
    · rw [List.getElem_eraseIdx_of_lt l si j hj hjs] at hxe
      apply hmina j hjs
      rw [hxe]
      simp [hxa]
    · rw [List.getElem_eraseIdx_of_ge l si j hj hjs] at hxe
      have hj1 : j + 1 < l.length := by omega
      have h1 : l[j + 1].id = a := by rw [hxe, hxa]
      have hj1m : j + 1 < (l.map Todo.id).length := by simpa using hj1
      have hsim : si < (l.map Todo.id).length := by simpa using hsi
      have hmapeq : (l.map Todo.id)[j + 1] = (l.map Todo.id)[si] := by
        simp only [List.getElem_map]
        rw [h1, hida2]
      have := (List.Nodup.getElem_inj_iff hnd).mp hmapeq
      omega
  refine ⟨_, hfirst, ?_⟩
  exact moveBelow_fixpoint (l.eraseIdx si) l[si] a b
    (if si < ti then ti - 1 else ti) hida2 hnotin hab hfk

/-- Witness for C3 at the spec section 8 scenario `[A, B, C]`,
    `move_below(A, C)`. -/
theorem moveBelow_idempotent_witness :
    ∃ r, Store.moveBelow [demoA, demoB, demoC] "a1" "c3" = .ok r
      ∧ Store.moveBelow r "a1" "c3" = .ok r :=
  moveBelow_idempotent [demoA, demoB, demoC] "a1" "c3"
    (by simp [demoA, demoB, demoC]) (by decide) (by simp [demoA]) (by simp [demoA, demoB, demoC])

/-- Witness for C6 at a concrete three-item list. -/
theorem move_boundary_noop_witness :
    Store.moveUp [demoA, demoB] demoA.id = .ok [demoA, demoB]
    ∧ Store.moveDown [demoA, demoB, demoC]
        (([demoA, demoB, demoC] : List Todo).getLast (by decide)).id = .ok [demoA, demoB, demoC]
    ∧ disableMoveUp 0 = true
    ∧ (∀ n, disableMoveDown (n - 1) n = true) :=
  move_boundary_noop demoA [demoB] [demoA, demoB, demoC] (by decide)
    (by simp [demoA, demoB, demoC])

end Mynd
